import Mathlib

/-!
Formal model of the SCR data pipeline of this repository
(`Projeto_Final/scr_pipeline.py` and `Projeto_Final/scr_s3_pipeline.py`).

Conventions of the shallow embedding:
* pandas DataFrames are modelled by `DF`: a list of column names plus a list of
  rows, each row a positional list of `Cell`s.  Cell values are `null`
  (NaN/NaT/None), exact rationals standing for Python floats, strings, or
  parsed dates.  Name-based column access uses the first matching column,
  which coincides with pandas on frames with unique column names.
* Python floats are modelled as `Rat`; `pd.to_numeric` string parsing is
  modelled by `parsePyFloat` (sign, decimal point, exponent; the special
  `inf`/`nan` spellings are not modelled).
* `pd.to_datetime(errors="coerce")` is modelled as parsing ISO `YYYY-MM-DD`
  strings, everything unparseable coercing to `null`.
* Filesystem, HTTP and S3 side effects are modelled by traces of `Eff`
  values; the environment (`Env`) gives the responses of the network and of
  object storage, and `FS` the relevant local filesystem state of one year's
  working directory.
* String manipulation is implemented structurally over `List Char` so that
  every definition evaluates inside the kernel.
-/

unseal Rat.mul Rat.add Rat.inv Rat.sub Rat.ofScientific

/-! ### Character and string utilities -/

/-- ASCII whitespace, as stripped by Python `str.strip()`. -/
def isSpaceChar (c : Char) : Bool :=
  c == ' ' || c == '\t' || c == '\n' || c == '\r'

/-- ASCII decimal digit test. -/
def isDigitChar (c : Char) : Bool :=
  decide (48 ≤ c.toNat) && decide (c.toNat ≤ 57)

/-- Lower-casing as used by `str.lower` on the alphabet occurring in SCR
column names (ASCII letters plus the accented capitals handled afterwards by
the source's diacritic replacements). -/
def charLower (c : Char) : Char :=
  if 65 ≤ c.toNat ∧ c.toNat ≤ 90 then Char.ofNat (c.toNat + 32)
  else if c = 'Ç' then 'ç' else if c = 'Ã' then 'ã' else if c = 'Á' then 'á'
  else if c = 'É' then 'é' else if c = 'Í' then 'í' else if c = 'Ó' then 'ó'
  else if c = 'Ú' then 'ú' else c

/-- Strip leading and trailing whitespace (`str.strip`). -/
def chTrim (l : List Char) : List Char :=
  ((l.dropWhile isSpaceChar).reverse.dropWhile isSpaceChar).reverse

/-- Split on a single-character separator, with the same semantics as
Python `str.split(sep)` / Lean `String.splitOn` for one-character
separators. -/
def chSplit (sep : Char) : List Char → List (List Char)
  | [] => [[]]
  | c :: cs =>
    let r := chSplit sep cs
    if c = sep then [] :: r
    else
      match r with
      | [] => [[c]]
      | g :: gs => (c :: g) :: gs

/-- Join char-list segments with a separator character. -/
def chJoin (sep : Char) : List (List Char) → List Char
  | [] => []
  | [g] => g
  | g :: gs => g ++ sep :: chJoin sep gs

/-- Suffix test on strings (`str.endswith`). -/
def strEndsWith (s suffix : String) : Bool :=
  suffix.toList.reverse.isPrefixOf s.toList.reverse

/-- Prefix test on strings (`str.startswith`). -/
def strStartsWith (s pre : String) : Bool :=
  pre.toList.isPrefixOf s.toList

/-- Lexicographic comparison of strings by character code, used only to model
`sorted(...)` on file names (the order is irrelevant to every claim, only that
sorting permutes). -/
def charsLe : List Char → List Char → Bool
  | [], _ => true
  | _ :: _, [] => false
  | a :: as, b :: bs =>
    if a.toNat < b.toNat then true
    else if b.toNat < a.toNat then false
    else charsLe as bs

/-! ### Model of `pd.to_numeric` string parsing (Python float syntax) -/

/-- Numeric value of a digit string. -/
def digitsVal (l : List Char) : Nat :=
  l.foldl (fun a c => a * 10 + (c.toNat - 48)) 0

/-- Nonempty all-digit test. -/
def allDigits (l : List Char) : Bool :=
  !l.isEmpty && l.all isDigitChar

/-- Unsigned decimal mantissa: digits with at most one decimal point and at
least one digit overall. -/
def parseMantissa (l : List Char) : Option Rat :=
  match chSplit '.' l with
  | [a] => if allDigits a then some ((digitsVal a : Nat) : Rat) else none
  | [a, b] =>
    if a.all isDigitChar && b.all isDigitChar && !(a.isEmpty && b.isEmpty) then
      some (((digitsVal (a ++ b) : Nat) : Rat) / ((10 : Rat) ^ b.length))
    else none
  | _ => none

/-- Optional sign in front of a mantissa. -/
def parseSignedWith (f : List Char → Option Rat) : List Char → Option Rat
  | '-' :: rest => (f rest).map Neg.neg
  | '+' :: rest => f rest
  | l => f l

/-- Signed integer exponent. -/
def parseExpVal : List Char → Option Int
  | '-' :: rest => if allDigits rest then some (-(digitsVal rest : Int)) else none
  | '+' :: rest => if allDigits rest then some ((digitsVal rest : Int)) else none
  | l => if allDigits l then some ((digitsVal l : Int)) else none

/-- Integer power of ten as a rational. -/
def tenPow : Int → Rat
  | .ofNat n => (10 : Rat) ^ n
  | .negSucc n => 1 / ((10 : Rat) ^ (n + 1))

/-- Model of parsing one cell with `pd.to_numeric`: Python float literal
syntax (optional sign, decimal point, optional exponent), surrounding
whitespace ignored; anything else fails. -/
def parsePyFloat (s : String) : Option Rat :=
  let t := (chTrim s.toList).map charLower
  match chSplit 'e' t with
  | [m] => parseSignedWith parseMantissa m
  | [m, ex] =>
    match parseSignedWith parseMantissa m, parseExpVal ex with
    | some mv, some ev => some (mv * tenPow ev)
    | _, _ => none
  | _ => none

/-! ### The tabular data model -/

/-- One cell of a table: missing value, float, text, or parsed date. -/
inductive Cell where
  | null
  | num (q : Rat)
  | str (s : String)
  | date (y m d : Nat)
deriving DecidableEq

/-- A DataFrame: column names plus positional rows. -/
structure DF where
  cols : List String
  rows : List (List Cell)
deriving DecidableEq

/-- Well-formedness: every row has exactly one cell per column. -/
def DF.WF (df : DF) : Prop := ∀ r ∈ df.rows, r.length = df.cols.length

instance (df : DF) : Decidable (DF.WF df) :=
  inferInstanceAs (Decidable (∀ r ∈ df.rows, r.length = df.cols.length))

/-- Index of the first column with the given name (`len cols` if absent). -/
def colIdx : List String → String → Nat
  | [], _ => 0
  | c :: cs, x => if c = x then 0 else colIdx cs x + 1

/-- The cell of row `r` in column `c` (null when the column is absent). -/
def getCell (cols : List String) (r : List Cell) (c : String) : Cell :=
  r.getD (colIdx cols c) .null

/-- `df[name] = f(df)` — overwrite the column if present, append it
otherwise; the new value of each row is computed from that row. -/
def addColF (df : DF) (name : String) (f : List String → List Cell → Cell) : DF :=
  if name ∈ df.cols then
    { cols := df.cols,
      rows := df.rows.map fun r => r.set (colIdx df.cols name) (f df.cols r) }
  else
    { cols := df.cols ++ [name], rows := df.rows.map fun r => r ++ [f df.cols r] }

/-- Transform the cells of one existing column in place. -/
def mapCol (df : DF) (c : String) (f : Cell → Cell) : DF :=
  if c ∈ df.cols then
    { cols := df.cols,
      rows := df.rows.map fun r =>
        r.set (colIdx df.cols c) (f (r.getD (colIdx df.cols c) .null)) }
  else df

/-- The empty frame `pd.DataFrame()`. -/
def emptyDF : DF := ⟨[], []⟩

/-! ### The transformer `processar_scrdata` (scr_pipeline.py, lines 11-147) -/

/-- Step 1: column-name normalization — lowercase, strip, spaces to
underscores, diacritics ç/ã/á/é/í/ó/ú stripped. -/
def normChar (c : Char) : Char :=
  if c = ' ' then '_'
  else if c = 'ç' then 'c' else if c = 'ã' then 'a' else if c = 'á' then 'a'
  else if c = 'é' then 'e' else if c = 'í' then 'i' else if c = 'ó' then 'o'
  else if c = 'ú' then 'u' else c

/-- Normalization of one column name. -/
def normalizeName (s : String) : String :=
  List.asString ((chTrim (s.toList.map charLower)).map normChar)

/-- Step 1 of `processar_scrdata`. -/
def renameStep (df : DF) : DF :=
  { cols := df.cols.map normalizeName, rows := df.rows }

/-- ISO `YYYY-MM-DD` date parser standing for `pd.to_datetime`. -/
def parseIsoDate (s : String) : Option (Nat × Nat × Nat) :=
  match chSplit '-' s.toList with
  | [ys, ms, ds] =>
    if allDigits ys && allDigits ms && allDigits ds then
      let y := digitsVal ys
      let m := digitsVal ms
      let d := digitsVal ds
      if 1 ≤ m ∧ m ≤ 12 ∧ 1 ≤ d ∧ d ≤ 31 then some (y, m, d) else none
    else none
  | _ => none

/-- `pd.to_datetime(x, errors="coerce")` on one cell. -/
def toDatetimeCell : Cell → Cell
  | .str s =>
    match parseIsoDate s with
    | some (y, m, d) => .date y m d
    | none => .null
  | .date y m d => .date y m d
  | _ => .null

/-- `.dt.year` (NaT gives null). -/
def yearCell : Cell → Cell
  | .date y _ _ => .num (y : Rat)
  | _ => .null

/-- `.dt.month` (NaT gives null). -/
def monthCell : Cell → Cell
  | .date _ m _ => .num (m : Rat)
  | _ => .null

/-- Step 2 of `processar_scrdata`: parse `data_base` and derive `ano`/`mes`. -/
def dateStep (df : DF) : DF :=
  if "data_base" ∈ df.cols then
    let d1 := mapCol df "data_base" toDatetimeCell
    let d2 := addColF d1 "ano" fun cols r => yearCell (getCell cols r "data_base")
    addColF d2 "mes" fun cols r => monthCell (getCell cols r "data_base")
  else df

/-- The fixed denylist of categorical/text columns (`colunas_texto`). -/
def colunasTexto : List String :=
  ["uf", "segmento", "cliente", "cnae_ocupacao",
   "porte", "modalidade", "submodalidade", "origem", "indexador"]

/-- A column is subject to numeric coercion when it is neither in the text
denylist nor one of the date/derived/provenance columns. -/
def isConvertibleName (c : String) : Bool :=
  !(colunasTexto.contains c) &&
  !(["data_base", "ano", "mes", "__arquivo_origem"].contains c)

/-- String cell test (`object` dtype detection). -/
def isStrCell : Cell → Bool
  | .str _ => true
  | _ => false

/-- A column has pandas `object` dtype in this model when some cell of it is
a string. -/
def isObjCol (df : DF) (j : Nat) : Bool :=
  df.rows.any fun r => isStrCell (r.getD j .null)

/-- Locale transform of the source: remove `.` (thousands separator), then
turn `,` into the decimal point. -/
def locNumChars (l : List Char) : List Char :=
  (l.filter fun c => !(c == '.')).map fun c => if c = ',' then '.' else c

/-- The same transform on strings. -/
def locNumTransform (s : String) : String :=
  List.asString (locNumChars s.toList)

/-- Coercion of one cell of an object column: strings go through the locale
transform and `pd.to_numeric(errors="coerce")`; non-string cells become null
(the `.str` accessor yields NaN on them). -/
def coerceCell : Cell → Cell
  | .str s =>
    match parsePyFloat (locNumTransform s) with
    | some q => .num q
    | none => .null
  | _ => .null

/-- Per-column coercion flags: position `j` is coerced when its name is
convertible and the column has object dtype. -/
def flagsFrom (df : DF) : Nat → List String → List Bool
  | _, [] => []
  | j, c :: cs => (isConvertibleName c && isObjCol df j) :: flagsFrom df (j + 1) cs

/-- All coercion flags of a frame. -/
def colFlags (df : DF) : List Bool := flagsFrom df 0 df.cols

/-- Coerce one row according to the frame's flags. -/
def coerceRow (df : DF) (r : List Cell) : List Cell :=
  List.zipWith (fun fl c => if fl then coerceCell c else c) (colFlags df) r

/-- Step 3 of `processar_scrdata`: locale-numeric coercion of every
convertible object column. -/
def coerceStep (df : DF) : DF :=
  { cols := df.cols, rows := df.rows.map (coerceRow df) }

/-- Float division with `replace([inf, -inf], nan)` applied to the result:
division by zero or by null yields null.  At its call sites both operands are
numeric or null (they sit in coerced columns). -/
def divCell : Cell → Cell → Cell
  | .num a, .num b => if b = 0 then .null else .num (a / b)
  | _, _ => .null

/-- One guarded indicator assignment of step 4: when both the source column
and `carteira_ativa` are present, store their ratio under `tgt`. -/
def indicCol (df : DF) (src tgt : String) : DF :=
  if src ∈ df.cols ∧ "carteira_ativa" ∈ df.cols then
    addColF df tgt fun cols r =>
      divCell (getCell cols r src) (getCell cols r "carteira_ativa")
  else df

/-- Step 4 of `processar_scrdata`: the three derived ratio indicators, each
guarded by presence of its source columns in the current frame. -/
def indicStep (ci : Bool) (df : DF) : DF :=
  if ci then
    indicCol (indicCol (indicCol df "carteira_inadimplencia" "taxa_inadimplencia")
      "carteira_vencida" "perc_carteira_vencida")
      "ativo_problematico" "taxa_ativo_problematico"
  else df

/-- `df["carteira_ativa"] > 0` on one cell (NaN compares false). -/
def isPosCell : Cell → Bool
  | .num q => decide (0 < q)
  | _ => false

/-- Step 5 of `processar_scrdata`: drop rows without a strictly positive
active portfolio when `remover_zeros` is set. -/
def filterStep (removerZeros : Bool) (df : DF) : DF :=
  if removerZeros ∧ "carteira_ativa" ∈ df.cols then
    { cols := df.cols,
      rows := df.rows.filter fun r => isPosCell (getCell df.cols r "carteira_ativa") }
  else df

/-- `carteira_vencida > carteira_ativa` on one row (used by the diagnostic
count only; NaN comparisons are false). -/
def cellGtB : Cell → Cell → Bool
  | .num a, .num b => decide (b < a)
  | _, _ => false

/-- The diagnostic subset of step 6: rows whose past-due portfolio exceeds
the active portfolio. -/
def inconsistentes (df : DF) : List (List Cell) :=
  df.rows.filter fun r =>
    cellGtB (getCell df.cols r "carteira_vencida") (getCell df.cols r "carteira_ativa")

/-- Step 6 of `processar_scrdata`: the consistency check computes the
diagnostic subset (printed in the source) and passes the frame through. -/
def checkStep (df : DF) : DF :=
  if "carteira_vencida" ∈ df.cols ∧ "carteira_ativa" ∈ df.cols then
    let _inc := inconsistentes df
    df
  else df

/-- Sort key of a row: its parsed base date, when present. -/
def dateKey (cols : List String) (r : List Cell) : Option (Nat × Nat × Nat) :=
  match getCell cols r "data_base" with
  | .date y m d => some (y, m, d)
  | _ => none

/-- Date order with nulls last (`sort_values` default `na_position="last"`). -/
def dateLeB (cols : List String) (r1 r2 : List Cell) : Bool :=
  match dateKey cols r1, dateKey cols r2 with
  | none, none => true
  | none, some _ => false
  | some _, none => true
  | some (y1, m1, d1), some (y2, m2, d2) =>
    decide (y1 < y2 ∨ (y1 = y2 ∧ (m1 < m2 ∨ (m1 = m2 ∧ d1 ≤ d2))))

/-- Insertion into a sorted list. -/
def insertB (le : α → α → Bool) (a : α) : List α → List α
  | [] => [a]
  | b :: bs => if le a b then a :: b :: bs else b :: insertB le a bs

/-- Insertion sort; only the fact that it permutes its input matters to the
claims (the source's `sort_values` uses a different, unstable algorithm). -/
def sortB (le : α → α → Bool) : List α → List α
  | [] => []
  | a :: as => insertB le a (sortB le as)

/-- Step 7 of `processar_scrdata`: sort ascending by parsed base date. -/
def sortStep (df : DF) : DF :=
  if "data_base" ∈ df.cols then
    { cols := df.cols, rows := sortB (dateLeB df.cols) df.rows }
  else df

/-- The transformer: steps 1-8 of `processar_scrdata` (step 8, the index
reset, is invisible in this index-free model; `verbose` only prints). -/
def processar_scrdata (df : DF) (removerZeros criarIndicadores : Bool) : DF :=
  sortStep (checkStep (filterStep removerZeros
    (indicStep criarIndicadores (coerceStep (dateStep (renameStep df))))))

/-! ### Loader: delimiter inference, CSV reading, concatenation -/

/-- `inferir_sep` of scr_pipeline.py: count `;` and `,` in the first 50000
bytes of the file and pick `;` exactly on a strict majority. -/
def inferir_sep (content : String) : String :=
  let text := content.toList.take 50000
  if text.count ';' > text.count ',' then ";" else ","

/-- `infer_sep` of scr_s3_pipeline.py — same computation. -/
def infer_sep (content : String) : String :=
  let text := content.toList.take 50000
  if text.count ';' > text.count ',' then ";" else ","

/-- A file inside an archive or an extraction directory. -/
structure ZipEntry where
  name : String
  content : String
deriving DecidableEq

/-- A zip archive: its member files in order. -/
abbrev ZipArchive := List ZipEntry

/-- Model of `pd.read_csv`: header line, then one row per line; a column
whose every field parses as a float (or is empty) is numeric, the others stay
text; empty fields are NaN. -/
def parseCsv (sep : Char) (content : String) : DF :=
  match (chSplit '\n' content.toList).filter (fun l => !l.isEmpty) with
  | [] => emptyDF
  | h :: rest =>
    let cols := (chSplit sep h).map List.asString
    let cells := rest.map (chSplit sep)
    let numericCol : Nat → Bool := fun j =>
      cells.all fun r =>
        let f := r.getD j []
        f.isEmpty || (parsePyFloat (List.asString f)).isSome
    { cols := cols,
      rows := cells.map fun r =>
        (List.range cols.length).map fun j =>
          let f := r.getD j []
          if f.isEmpty then .null
          else if numericCol j then
            match parsePyFloat (List.asString f) with
            | some q => .num q
            | none => .null
          else .str (List.asString f) }

/-- Base name of a path (`Path.name`). -/
def baseName (p : String) : String :=
  List.asString ((chSplit '/' p.toList).getLastD p.toList)

/-- Column union of several frames in order of first appearance
(`pd.concat(..., sort=False)`). -/
def unionCols (ds : List DF) : List String :=
  ds.foldl (fun acc d => acc ++ d.cols.filter fun c => !(acc.contains c)) []

/-- Re-index one row to the union schema, null-filling absent columns. -/
def alignRow (oldCols newCols : List String) (r : List Cell) : List Cell :=
  newCols.map fun c => if oldCols.contains c then getCell oldCols r c else .null

/-- `pd.concat(dfs, ignore_index=True, sort=False)`. -/
def concatDFs (ds : List DF) : DF :=
  let cs := unionCols ds
  { cols := cs, rows := (ds.map fun d => d.rows.map (alignRow d.cols cs)).flatten }

/-- Effects observable outside the process: directory creation, HTTP
download, local file writes/reads, S3 probe/upload, directory clearing and
archive extraction. -/
inductive Eff where
  | mkdir (p : String)
  | httpGet (url : String)
  | writeFile (p : String)
  | readFile (p : String)
  | s3Head (bucket key : String)
  | s3Upload (bucket key : String)
  | clearDir (p : String)
  | extractTo (p : String)
deriving DecidableEq

/-- `read_and_concat_csvs` of scr_s3_pipeline.py (the same loop is inlined
in `pipeline_scrdata`): infer each file's delimiter, read it, tag rows with
the source file name, concatenate; the empty input list yields the empty
frame.  Decoding always succeeds in this model, so the latin-1 retry of the
source is invisible. -/
def read_and_concat_csvs (files : List ZipEntry) : DF × List Eff :=
  let dfs := files.map fun p =>
    addColF (parseCsv (((infer_sep p.content).toList.getD 0 ',')) p.content)
      "__arquivo_origem" fun _ _ => .str (baseName p.name)
  (if dfs.isEmpty then emptyDF else concatDFs dfs,
   files.map fun p => .readFile p.name)

/-! ### Paths and the zip-slip guard of `safe_extract_zip` -/

/-- Path segments of a rendered path (empty segments dropped, `.`/`..` kept
for later resolution). -/
def nameSegs (n : String) : List String :=
  ((chSplit '/' n.toList).filter fun l => !l.isEmpty).map List.asString

/-- `extract_to / member.filename`: an absolute member name replaces the
base (pathlib `/` semantics). -/
def joinSegs (dest : List String) (n : String) : List String :=
  if strStartsWith n "/" then nameSegs n else dest ++ nameSegs n

/-- Lexical `Path.resolve()`: collapse `.` and `..` (symlinks are not
modelled). -/
def normSegs (l : List String) : List String :=
  l.foldl (fun acc s =>
    if s = "." then acc else if s = ".." then acc.dropLast else acc ++ [s]) []

/-- Resolved output path of one archive member below a destination. -/
def resolveJoin (dest : List String) (n : String) : List String :=
  normSegs (joinSegs dest n)

/-- `str(path)` of an absolute path given by segments. -/
def renderPath (l : List String) : String :=
  "/" ++ List.asString (chJoin '/' (l.map String.toList))

/-- The guard of `safe_extract_zip`:
`str(member_path.resolve()).startswith(str(extract_to.resolve()))`. -/
def checkEntry (dest : List String) (n : String) : Bool :=
  strStartsWith (renderPath (resolveJoin dest n)) (renderPath (normSegs dest))

/-- The sanitization `zipfile.extractall` itself applies to member names:
empty, `.` and `..` components are dropped. -/
def sanitizeSegs (n : String) : List String :=
  (nameSegs n).filter fun s => !(s == ".") && !(s == "..")

/-- Member name after `extractall`'s sanitization, relative to the
destination. -/
def sanitizedName (n : String) : String :=
  List.asString (chJoin '/' ((sanitizeSegs n).map String.toList))

/-- Errors of the pipelines. -/
inductive Err where
  | invalidYear (ano : Int)
  | fetch (url : String)
  | zipSlip (entry : String)
  | noZip (p : String)
  | noCsv (dir : String)
deriving DecidableEq

/-- `safe_extract_zip` of scr_s3_pipeline.py: every member is checked with
`checkEntry` before anything is extracted; if all pass, `extractall` writes
each member at its sanitized path below the destination. -/
def safe_extract_zip (z : ZipArchive) (dest : List String) :
    Except Err (List (List String)) :=
  match z.find? (fun e => !(checkEntry dest e.name)) with
  | some e => .error (.zipSlip e.name)
  | none => .ok (z.map fun e => dest ++ sanitizeSegs e.name)

/-- What `extractall` leaves in the extraction directory (used by both
pipelines; `zf.extractall` applies the same sanitization). -/
def extractAll (z : ZipArchive) : List ZipEntry :=
  z.map fun e => ⟨sanitizedName e.name, e.content⟩

/-! ### The local pipeline `pipeline_scrdata` (scr_pipeline.py, lines 149-324) -/

/-- Environment: object storage contents and HTTP responses (`none` models a
network failure or non-2xx status). -/
structure Env where
  s3Has : String → Bool
  http : String → Option ZipArchive

/-- Relevant local filesystem state of one year's working directory: the
cached zip (with its content) and the extracted files. -/
structure FS where
  zipFile : Option ZipArchive
  extracted : List ZipEntry

/-- Source URL of one year's archive. -/
def urlOf (ano : Int) : String :=
  "https://www.bcb.gov.br/pda/desig/scrdata_" ++ toString ano ++ ".zip"

/-- `{base}/{year}/raw`. -/
def rawDirOf (base : String) (ano : Int) : String :=
  base ++ "/" ++ toString ano ++ "/raw"

/-- `{base}/{year}/extracted`. -/
def extractedDirOf (base : String) (ano : Int) : String :=
  base ++ "/" ++ toString ano ++ "/extracted"

/-- `{base}/{year}/processed`. -/
def processedDirOf (base : String) (ano : Int) : String :=
  base ++ "/" ++ toString ano ++ "/processed"

/-- `{base}/{year}/raw/scrdata_{year}.zip`. -/
def zipPathOf (base : String) (ano : Int) : String :=
  rawDirOf base ano ++ "/scrdata_" ++ toString ano ++ ".zip"

/-- Result of a successful local pipeline run (the fields of the returned
dictionary the claims speak about). -/
structure PipeOut where
  zipPath : String
  dfRaw : DF
  dfProcessed : DF
deriving DecidableEq

/-- Result, effect trace and final filesystem state of one run. -/
structure RunOut where
  res : Except Err PipeOut
  trace : List Eff
  fs : FS

/-- Download stage of `pipeline_scrdata`: skip when the zip already exists
and no forced refresh was requested, otherwise GET and write the file. -/
def fetchStep (url zp : String) (forcar : Bool) (env : Env) (fs : FS) :
    Except Err FS × List Eff :=
  if fs.zipFile.isSome && !forcar then (.ok fs, [])
  else
    match env.http url with
    | none => (.error (.fetch url), [.httpGet url])
    | some z => (.ok { fs with zipFile := some z }, [.httpGet url, .writeFile zp])

/-- Extraction stage of `pipeline_scrdata`: skip when CSVs are already
extracted and no forced refresh was requested; on forced refresh the
directory is cleared first; then `extractall`. -/
def extractStep (extDir zp : String) (forcar : Bool) (fs : FS) :
    Except Err FS × List Eff :=
  if fs.extracted.any (fun e => strEndsWith e.name ".csv") && !forcar then (.ok fs, [])
  else
    match fs.zipFile with
    | none => (.error (.noZip zp), if forcar then [Eff.clearDir extDir] else [])
    | some z =>
      (.ok ⟨some z, extractAll z⟩,
       (if forcar then [Eff.clearDir extDir] else []) ++ [.extractTo extDir])

/-- Sort a file list by name (`sorted(extracted_dir.rglob("*.csv"))`). -/
def sortByName (l : List ZipEntry) : List ZipEntry :=
  sortB (fun a b => charsLe a.name.toList b.name.toList) l

/-- `pipeline_scrdata` with default options (`sep=None`, parquet saved, origin
column added, `remover_zeros` and `criar_indicadores` true): year guard, then
directory creation, cached download, cached extraction, CSV discovery,
load/concat, transform, parquet write. -/
def pipeline_scrdata (ano : Int) (base : String) (forcar : Bool) (env : Env) (fs : FS) :
    RunOut :=
  if 1900 ≤ ano ∧ ano ≤ 2100 then
    let extDir := extractedDirOf base ano
    let procDir := processedDirOf base ano
    let zp := zipPathOf base ano
    let t0 : List Eff := [.mkdir (rawDirOf base ano), .mkdir extDir, .mkdir procDir]
    let fr := fetchStep (urlOf ano) zp forcar env fs
    match fr.1 with
    | .error e => ⟨.error e, t0 ++ fr.2, fs⟩
    | .ok fs1 =>
      let er := extractStep extDir zp forcar fs1
      match er.1 with
      | .error e => ⟨.error e, t0 ++ fr.2 ++ er.2, fs1⟩
      | .ok fs2 =>
        let csvs := sortByName (fs2.extracted.filter fun e => strEndsWith e.name ".csv")
        if csvs.isEmpty then ⟨.error (.noCsv extDir), t0 ++ fr.2 ++ er.2, fs2⟩
        else
          let rc := read_and_concat_csvs csvs
          let dfp := processar_scrdata rc.1 true true
          ⟨.ok ⟨zp, rc.1, dfp⟩,
           t0 ++ fr.2 ++ er.2 ++ rc.2 ++
             [.writeFile (procDir ++ "/scrdata_" ++ toString ano ++ ".parquet")],
           fs2⟩
  else ⟨.error (.invalidYear ano), [], fs⟩

/-! ### The S3 pipeline `process_year_to_s3` (scr_s3_pipeline.py, lines 108-196) -/

/-- `{prefix}/processed/ano={year}/scrdata_{year}.parquet`. -/
def parquetKeyOf (pfx : String) (ano : Int) : String :=
  pfx ++ "/processed/ano=" ++ toString ano ++ "/scrdata_" ++ toString ano ++ ".parquet"

/-- `{prefix}/raw/ano={year}/scrdata_{year}.zip`. -/
def zipKeyOf (pfx : String) (ano : Int) : String :=
  pfx ++ "/raw/ano=" ++ toString ano ++ "/scrdata_" ++ toString ano ++ ".zip"

/-- `{workdir}/ano={year}/raw`. -/
def rawDirS3 (wd : String) (ano : Int) : String :=
  wd ++ "/ano=" ++ toString ano ++ "/raw"

/-- `{workdir}/ano={year}/extracted`. -/
def extDirS3 (wd : String) (ano : Int) : String :=
  wd ++ "/ano=" ++ toString ano ++ "/extracted"

/-- `{workdir}/ano={year}/processed`. -/
def procDirS3 (wd : String) (ano : Int) : String :=
  wd ++ "/ano=" ++ toString ano ++ "/processed"

/-- Outcome of one year's S3 run. -/
inductive S3Out where
  | skipped
  | done
deriving DecidableEq

/-- `process_year_to_s3` with default processing options: create the local
working directories, probe S3 for the processed artifact unless overwriting
(skipping the year when present), then download (the streaming helper
re-creates the raw directory), upload the raw zip, clear and re-create the
extraction directory, safely extract, discover CSVs, load, transform, write
parquet and upload it.  There is no year validation in the source. -/
def process_year_to_s3 (ano : Int) (bucket pfx wd : String) (overwrite : Bool)
    (env : Env) : Except Err S3Out × List Eff :=
  let extDir := extDirS3 wd ano
  let pqKey := parquetKeyOf pfx ano
  let t0 : List Eff := [.mkdir (rawDirS3 wd ano), .mkdir extDir, .mkdir (procDirS3 wd ano)]
  if !overwrite && env.s3Has pqKey then (.ok .skipped, t0 ++ [.s3Head bucket pqKey])
  else
    let t1 := t0 ++ (if overwrite then [] else [Eff.s3Head bucket pqKey])
    match env.http (urlOf ano) with
    | none => (.error (.fetch (urlOf ano)), t1 ++ [.mkdir (rawDirS3 wd ano), .httpGet (urlOf ano)])
    | some z =>
      let zipLocal := rawDirS3 wd ano ++ "/scrdata_" ++ toString ano ++ ".zip"
      let t2 := t1 ++ [.mkdir (rawDirS3 wd ano), .httpGet (urlOf ano), .writeFile zipLocal,
                       .s3Upload bucket (zipKeyOf pfx ano), .clearDir extDir, .mkdir extDir]
      match safe_extract_zip z (nameSegs extDir) with
      | .error e => (.error e, t2)
      | .ok _ =>
        let t3 := t2 ++ [.extractTo extDir]
        let csvs := sortByName ((extractAll z).filter fun e => strEndsWith e.name ".csv")
        if csvs.isEmpty then (.error (.noCsv extDir), t3)
        else
          let rc := read_and_concat_csvs csvs
          let _dfp := processar_scrdata rc.1 true true
          (.ok .done,
           t3 ++ rc.2 ++
             [.writeFile (procDirS3 wd ano ++ "/scrdata_" ++ toString ano ++ ".parquet"),
              .s3Upload bucket pqKey])

deriving instance DecidableEq for Except

deriving instance DecidableEq for FS

deriving instance DecidableEq for RunOut

/-- Count of HTTP downloads in a trace. -/
def isHttpGet : Eff → Bool
  | .httpGet _ => true
  | _ => false

/-- Number of network downloads a trace performs. -/
def httpCount (t : List Eff) : Nat := t.countP isHttpGet

/-- Work effects beyond directory creation and the skip probe: download,
file writes/reads, uploads, extraction, clearing. -/
def isWorkEff : Eff → Bool
  | .mkdir _ => false
  | .s3Head _ _ => false
  | _ => true

/-! ### Concrete fixtures used by witnesses and counterexamples -/

/-- Environment with empty object storage and a failing network. -/
def envC2 : Env := ⟨fun _ => false, fun _ => none⟩

/-- Filesystem with no cached zip and nothing extracted. -/
def fsEmpty : FS := ⟨none, []⟩

/-- Environment whose object storage already holds every key. -/
def envC3 : Env := ⟨fun _ => true, fun _ => none⟩

/-- A one-file archive served for every URL. -/
def zipC4 : ZipArchive := [⟨"planilha_mensal.csv", "a;b\n1;2"⟩]

/-- Environment with empty object storage serving `zipC4`. -/
def envC4 : Env := ⟨fun _ => false, fun _ => some zipC4⟩

/-- Environment serving an archive that contains no CSV member. -/
def envC10 : Env := ⟨fun _ => false, fun _ => some [⟨"leia.txt", "oi"⟩]⟩

/-- The extraction directory of the C1 failing input, as absolute segments. -/
def slipDest : List String := ["data_work", "ano=2012", "extracted"]

/-- Archive with one member whose resolved path escapes into a sibling
directory whose name extends the destination's name. -/
def slipZip : ZipArchive := [⟨"../extracted_evil/evil.csv", "pwn"⟩]

/-- Input frame of the C5 witness. -/
def dfC5 : DF :=
  ⟨["carteira_inadimplencia", "carteira_ativa"],
   [[.num 50, .num 1000], [.num 3, .num 0], [.null, .num 2]]⟩

/-- Input frame of the C6 witness. -/
def dfC6 : DF := ⟨["valor", "uf"], [[.str "1.234,56", .str "SP"]]⟩

/-- The single row of `dfC6`. -/
def rowC6 : List Cell := [.str "1.234,56", .str "SP"]

/-- Input frame of the C7 witness: rows with positive, zero, negative and
null active portfolio. -/
def dfC7 : DF :=
  ⟨["carteira_ativa"], [[.num 7], [.num 0], [.num (-3)], [.null]]⟩

/-! ### Generic list lemmas -/

theorem getD_append_lt {α : Type _} (r t : List α) (i : Nat) (d : α)
    (h : i < r.length) : (r ++ t).getD i d = r.getD i d := by
  induction r generalizing i with
  | nil => simp at h
  | cons a as ih =>
    cases i with
    | zero => rfl
    | succ n => exact ih n (by simpa using h)

theorem getD_append_len {α : Type _} (r : List α) (v d : α) :
    (r ++ [v]).getD r.length d = v := by
  induction r with
  | nil => rfl
  | cons a as ih => exact ih

theorem getD_of_len_le {α : Type _} (r : List α) (i : Nat) (d : α)
    (h : r.length ≤ i) : r.getD i d = d := by
  induction r generalizing i with
  | nil => cases i <;> rfl
  | cons a as ih =>
    cases i with
    | zero => simp at h
    | succ n => exact ih n (by simpa using h)

theorem getD_set_self {α : Type _} (r : List α) (i : Nat) (v d : α)
    (h : i < r.length) : (r.set i v).getD i d = v := by
  induction r generalizing i with
  | nil => simp at h
  | cons a as ih =>
    cases i with
    | zero => rfl
    | succ n => exact ih n (by simpa using h)

theorem getD_set_ne {α : Type _} (r : List α) (i j : Nat) (v d : α)
    (h : i ≠ j) : (r.set i v).getD j d = r.getD j d := by
  induction r generalizing i j with
  | nil => rfl
  | cons a as ih =>
    cases i with
    | zero =>
      cases j with
      | zero => exact absurd rfl h
      | succ m => rfl
    | succ n =>
      cases j with
      | zero => rfl
      | succ m => exact ih n m (by omega)

theorem getD_zipWith {α β γ : Type _} (f : α → β → γ) (as : List α) (bs : List β)
    (i : Nat) (d : γ) (da : α) (db : β) (ha : i < as.length) (hb : i < bs.length) :
    (List.zipWith f as bs).getD i d = f (as.getD i da) (bs.getD i db) := by
  induction as generalizing bs i with
  | nil => simp at ha
  | cons a as ih =>
    cases bs with
    | nil => simp at hb
    | cons b bs =>
      cases i with
      | zero => rfl
      | succ n => exact ih bs n (by simpa using ha) (by simpa using hb)

/-! ### Lemmas about column indices -/

theorem colIdx_lt_of_mem {cols : List String} {c : String} (h : c ∈ cols) :
    colIdx cols c < cols.length := by
  induction cols with
  | nil => simp at h
  | cons a as ih =>
    by_cases hac : a = c
    · simp [colIdx, hac]
    · rcases List.mem_cons.mp h with h1 | h2
      · exact absurd h1.symm hac
      · simpa [colIdx, hac] using ih h2

theorem colIdx_eq_len_of_not_mem {cols : List String} {c : String} (h : c ∉ cols) :
    colIdx cols c = cols.length := by
  induction cols with
  | nil => rfl
  | cons a as ih =>
    have hac : a ≠ c := fun he => h (he ▸ List.mem_cons_self a as)
    have has : c ∉ as := fun hm => h (List.mem_cons_of_mem a hm)
    simp [colIdx, hac, ih has]

theorem getD_colIdx_of_mem {cols : List String} {c : String} (d : String)
    (h : c ∈ cols) : cols.getD (colIdx cols c) d = c := by
  induction cols with
  | nil => simp at h
  | cons a as ih =>
    by_cases hac : a = c
    · simp [colIdx, hac]
    · rcases List.mem_cons.mp h with h1 | h2
      · exact absurd h1.symm hac
      · simpa [colIdx, hac] using ih h2

theorem colIdx_append_of_mem {cols : List String} {c : String} (t : List String)
    (h : c ∈ cols) : colIdx (cols ++ t) c = colIdx cols c := by
  induction cols with
  | nil => simp at h
  | cons a as ih =>
    by_cases hac : a = c
    · simp [colIdx, hac]
    · rcases List.mem_cons.mp h with h1 | h2
      · exact absurd h1.symm hac
      · simp [colIdx, hac, ih h2]

theorem colIdx_append_self {cols : List String} {c : String} (h : c ∉ cols) :
    colIdx (cols ++ [c]) c = cols.length := by
  induction cols with
  | nil => simp [colIdx]
  | cons a as ih =>
    have hac : a ≠ c := fun he => h (he ▸ List.mem_cons_self a as)
    have has : c ∉ as := fun hm => h (List.mem_cons_of_mem a hm)
    simp [colIdx, hac, ih has]

theorem colIdx_append_ne {cols : List String} {c n : String} (h : c ∉ cols)
    (hne : c ≠ n) : colIdx (cols ++ [n]) c = cols.length + 1 := by
  induction cols with
  | nil => simp [colIdx, hne.symm]
  | cons a as ih =>
    have hac : a ≠ c := fun he => h (he ▸ List.mem_cons_self a as)
    have has : c ∉ as := fun hm => h (List.mem_cons_of_mem a hm)
    simp [colIdx, hac, ih has]

theorem colIdx_ne_of_ne {cols : List String} {c n : String} (hn : n ∈ cols)
    (hne : c ≠ n) : colIdx cols c ≠ colIdx cols n := by
  by_cases hc : c ∈ cols
  · intro he
    have h1 := getD_colIdx_of_mem "" hc
    have h2 := getD_colIdx_of_mem "" hn
    rw [he, h2] at h1
    exact hne h1.symm
  · rw [colIdx_eq_len_of_not_mem hc]
    have := colIdx_lt_of_mem hn
    omega

/-! ### Specifications of the frame operations -/

theorem addColF_wf {df : DF} (n : String) (f : List String → List Cell → Cell)
    (hwf : DF.WF df) : DF.WF (addColF df n f) := by
  unfold addColF
  by_cases hmem : n ∈ df.cols
  · rw [if_pos hmem]
    intro r2 hr2
    obtain ⟨r, hr, rfl⟩ := List.mem_map.mp hr2
    simpa using hwf r hr
  · rw [if_neg hmem]
    intro r2 hr2
    obtain ⟨r, hr, rfl⟩ := List.mem_map.mp hr2
    simp [hwf r hr]

theorem addColF_mem_cols {df : DF} (n : String) (f : List String → List Cell → Cell)
    {c : String} (h : c ∈ df.cols) : c ∈ (addColF df n f).cols := by
  unfold addColF
  by_cases hmem : n ∈ df.cols
  · rw [if_pos hmem]; exact h
  · rw [if_neg hmem]; exact List.mem_append_left _ h

theorem addColF_rows {df : DF} (n : String) (f : List String → List Cell → Cell)
    (hwf : DF.WF df) :
    ∀ r2 ∈ (addColF df n f).rows, ∃ r ∈ df.rows,
      getCell (addColF df n f).cols r2 n = f df.cols r ∧
      ∀ c, c ≠ n → getCell (addColF df n f).cols r2 c = getCell df.cols r c := by
  unfold addColF
  by_cases hmem : n ∈ df.cols
  · rw [if_pos hmem]
    intro r2 hr2
    obtain ⟨r, hr, rfl⟩ := List.mem_map.mp hr2
    refine ⟨r, hr, ?_, ?_⟩
    · have hlt : colIdx df.cols n < r.length := by
        rw [hwf r hr]; exact colIdx_lt_of_mem hmem
      exact getD_set_self r _ _ _ hlt
    · intro c hne
      show (r.set (colIdx df.cols n) (f df.cols r)).getD (colIdx df.cols c) .null =
        r.getD (colIdx df.cols c) .null
      exact getD_set_ne r _ _ _ _ (colIdx_ne_of_ne hmem hne).symm
  · rw [if_neg hmem]
    intro r2 hr2
    obtain ⟨r, hr, rfl⟩ := List.mem_map.mp hr2
    refine ⟨r, hr, ?_, ?_⟩
    · show (r ++ [f df.cols r]).getD (colIdx (df.cols ++ [n]) n) .null = f df.cols r
      rw [colIdx_append_self hmem, ← hwf r hr, getD_append_len]
    · intro c hne
      show (r ++ [f df.cols r]).getD (colIdx (df.cols ++ [n]) c) .null =
        r.getD (colIdx df.cols c) .null
      by_cases hc : c ∈ df.cols
      · rw [colIdx_append_of_mem _ hc]
        exact getD_append_lt r _ _ _ (by rw [hwf r hr]; exact colIdx_lt_of_mem hc)
      · rw [colIdx_append_ne hc hne,
          getD_of_len_le _ _ _ (by simp [hwf r hr]),
          getD_of_len_le _ _ _ (by rw [hwf r hr, colIdx_eq_len_of_not_mem hc])]

theorem mapCol_cols (df : DF) (c0 : String) (f : Cell → Cell) :
    (mapCol df c0 f).cols = df.cols := by
  unfold mapCol
  split <;> rfl

theorem mapCol_wf {df : DF} (c0 : String) (f : Cell → Cell) (hwf : DF.WF df) :
    DF.WF (mapCol df c0 f) := by
  unfold mapCol
  split
  · intro r2 hr2
    obtain ⟨r, hr, rfl⟩ := List.mem_map.mp hr2
    simpa using hwf r hr
  · exact hwf

theorem mapCol_mem_cols {df : DF} (c0 : String) (f : Cell → Cell) {c : String}
    (h : c ∈ df.cols) : c ∈ (mapCol df c0 f).cols := by
  rw [mapCol_cols]; exact h

theorem renameStep_cols (df : DF) : (renameStep df).cols = df.cols.map normalizeName := rfl

theorem renameStep_wf {df : DF} (hwf : DF.WF df) : DF.WF (renameStep df) := by
  intro r hr
  simpa [renameStep] using hwf r hr

theorem dateStep_mem_cols {df : DF} {c : String} (h : c ∈ df.cols) :
    c ∈ (dateStep df).cols := by
  unfold dateStep
  split
  · exact addColF_mem_cols _ _ (addColF_mem_cols _ _ (mapCol_mem_cols _ _ h))
  · exact h

theorem dateStep_wf {df : DF} (hwf : DF.WF df) : DF.WF (dateStep df) := by
  unfold dateStep
  split
  · exact addColF_wf _ _ (addColF_wf _ _ (mapCol_wf _ _ hwf))
  · exact hwf

theorem flagsFrom_length (df : DF) (cs : List String) :
    ∀ j, (flagsFrom df j cs).length = cs.length := by
  induction cs with
  | nil => intro j; rfl
  | cons c cs ih => intro j; simp [flagsFrom, ih]

theorem colFlags_length (df : DF) : (colFlags df).length = df.cols.length :=
  flagsFrom_length df df.cols 0

theorem flagsFrom_getD (df : DF) (cs : List String) :
    ∀ j k, k < cs.length →
      (flagsFrom df j cs).getD k false =
        (isConvertibleName (cs.getD k "") && isObjCol df (j + k)) := by
  induction cs with
  | nil => intro j k hk; simp at hk
  | cons c cs ih =>
    intro j k hk
    cases k with
    | zero => rfl
    | succ m =>
      have := ih (j + 1) m (by simpa using hk)
      simpa [flagsFrom, Nat.add_assoc, Nat.add_comm 1 m] using this

theorem colFlags_getD (df : DF) (j : Nat) (h : j < df.cols.length) :
    (colFlags df).getD j false =
      (isConvertibleName (df.cols.getD j "") && isObjCol df j) := by
  have := flagsFrom_getD df df.cols 0 j h
  simpa using this

theorem coerceRow_getD {df : DF} {r : List Cell} (hr : r.length = df.cols.length)
    (j : Nat) (hj : j < df.cols.length) :
    (coerceRow df r).getD j .null =
      (if isConvertibleName (df.cols.getD j "") && isObjCol df j then
        coerceCell (r.getD j .null) else r.getD j .null) := by
  unfold coerceRow
  rw [getD_zipWith _ _ _ _ _ false .null (by rw [colFlags_length]; exact hj)
    (by rw [hr]; exact hj)]
  rw [colFlags_getD df j hj]

theorem coerceStep_cols (df : DF) : (coerceStep df).cols = df.cols := rfl

theorem coerceStep_wf {df : DF} (hwf : DF.WF df) : DF.WF (coerceStep df) := by
  intro r2 hr2
  obtain ⟨r, hr, rfl⟩ := List.mem_map.mp hr2
  show (coerceRow df r).length = df.cols.length
  unfold coerceRow
  rw [List.length_zipWith, colFlags_length, hwf r hr, Nat.min_self]

theorem coerceStep_mem_cols {df : DF} {c : String} (h : c ∈ df.cols) :
    c ∈ (coerceStep df).cols := h

theorem indicCol_wf (df : DF) (src tgt : String) (hwf : DF.WF df) :
    DF.WF (indicCol df src tgt) := by
  unfold indicCol
  split
  · exact addColF_wf _ _ hwf
  · exact hwf

theorem indicCol_mem_cols {df : DF} (src tgt : String) {c : String}
    (h : c ∈ df.cols) : c ∈ (indicCol df src tgt).cols := by
  unfold indicCol
  split
  · exact addColF_mem_cols _ _ h
  · exact h

theorem indicStep_wf {df : DF} (ci : Bool) (hwf : DF.WF df) :
    DF.WF (indicStep ci df) := by
  unfold indicStep
  split
  · exact indicCol_wf _ _ _ (indicCol_wf _ _ _ (indicCol_wf _ _ _ hwf))
  · exact hwf

theorem indicStep_mem_cols {df : DF} (ci : Bool) {c : String} (h : c ∈ df.cols) :
    c ∈ (indicStep ci df).cols := by
  unfold indicStep
  split
  · exact indicCol_mem_cols _ _ (indicCol_mem_cols _ _ (indicCol_mem_cols _ _ h))
  · exact h

/-- The indicator assignment establishes its own ratio invariant on every
row of its output. -/
theorem indicCol_inv (df : DF) (src tgt : String) (hwf : DF.WF df)
    (hs : src ∈ df.cols) (ha : "carteira_ativa" ∈ df.cols)
    (h1 : src ≠ tgt) (h2 : "carteira_ativa" ≠ tgt) :
    ∀ r2 ∈ (indicCol df src tgt).rows,
      getCell (indicCol df src tgt).cols r2 tgt =
        divCell (getCell (indicCol df src tgt).cols r2 src)
          (getCell (indicCol df src tgt).cols r2 "carteira_ativa") := by
  unfold indicCol
  rw [if_pos ⟨hs, ha⟩]
  intro r2 hr2
  obtain ⟨r, _, hself, hother⟩ := addColF_rows tgt _ hwf r2 hr2
  rw [hself, hother src h1, hother "carteira_ativa" h2]

/-- A ratio invariant between three columns distinct from the assigned
target survives an indicator assignment. -/
theorem indicCol_inv_transfer (df : DF) (t c1 c2 src tgt : String)
    (hwf : DF.WF df) (h1 : t ≠ tgt) (h2 : c1 ≠ tgt) (h3 : c2 ≠ tgt)
    (hinv : ∀ r ∈ df.rows,
      getCell df.cols r t = divCell (getCell df.cols r c1) (getCell df.cols r c2)) :
    ∀ r2 ∈ (indicCol df src tgt).rows,
      getCell (indicCol df src tgt).cols r2 t =
        divCell (getCell (indicCol df src tgt).cols r2 c1)
          (getCell (indicCol df src tgt).cols r2 c2) := by
  unfold indicCol
  split
  · intro r2 hr2
    obtain ⟨r, hr, _, hother⟩ := addColF_rows tgt _ hwf r2 hr2
    rw [hother t h1, hother c1 h2, hother c2 h3]
    exact hinv r hr
  · exact hinv

theorem filterStep_cols (rz : Bool) (df : DF) : (filterStep rz df).cols = df.cols := by
  unfold filterStep
  split <;> rfl

theorem filterStep_rows_sub (rz : Bool) (df : DF) :
    ∀ r ∈ (filterStep rz df).rows, r ∈ df.rows := by
  unfold filterStep
  split
  · intro r hr
    exact List.mem_of_mem_filter hr
  · intro r hr
    exact hr

theorem checkStep_eq (df : DF) : checkStep df = df := by
  unfold checkStep
  split <;> rfl

theorem insertB_perm {α : Type _} (le : α → α → Bool) (a : α) (l : List α) :
    List.Perm (insertB le a l) (a :: l) := by
  induction l with
  | nil => exact List.Perm.refl _
  | cons b bs ih =>
    unfold insertB
    split
    · exact List.Perm.refl _
    · exact List.Perm.trans (List.Perm.cons b ih) (List.Perm.swap a b bs)

theorem sortB_perm {α : Type _} (le : α → α → Bool) (l : List α) :
    List.Perm (sortB le l) l := by
  induction l with
  | nil => exact List.Perm.refl _
  | cons a as ih =>
    exact List.Perm.trans (insertB_perm le a (sortB le as)) (List.Perm.cons a ih)

theorem sortStep_cols (df : DF) : (sortStep df).cols = df.cols := by
  unfold sortStep
  split <;> rfl

theorem sortStep_perm (df : DF) : List.Perm (sortStep df).rows df.rows := by
  unfold sortStep
  split
  · exact sortB_perm _ _
  · exact List.Perm.refl _

/-! ### Indicator invariants through the pipeline tail -/

theorem filterStep_false (df : DF) : filterStep false df = df := by
  unfold filterStep
  rw [if_neg (by simp)]

theorem indicStep_inv_inad (d : DF) (hwf : DF.WF d)
    (ha : "carteira_inadimplencia" ∈ d.cols) (hb : "carteira_ativa" ∈ d.cols) :
    ∀ r2 ∈ (indicStep true d).rows,
      getCell (indicStep true d).cols r2 "taxa_inadimplencia" =
        divCell (getCell (indicStep true d).cols r2 "carteira_inadimplencia")
          (getCell (indicStep true d).cols r2 "carteira_ativa") := by
  unfold indicStep
  rw [if_pos rfl]
  have h0 := indicCol_inv d "carteira_inadimplencia" "taxa_inadimplencia"
    hwf ha hb (by decide) (by decide)
  have w1 := indicCol_wf d "carteira_inadimplencia" "taxa_inadimplencia" hwf
  have h1 := indicCol_inv_transfer _ "taxa_inadimplencia" "carteira_inadimplencia"
    "carteira_ativa" "carteira_vencida" "perc_carteira_vencida"
    w1 (by decide) (by decide) (by decide) h0
  have w2 := indicCol_wf _ "carteira_vencida" "perc_carteira_vencida" w1
  exact indicCol_inv_transfer _ "taxa_inadimplencia" "carteira_inadimplencia"
    "carteira_ativa" "ativo_problematico" "taxa_ativo_problematico"
    w2 (by decide) (by decide) (by decide) h1

theorem indicStep_inv_venc (d : DF) (hwf : DF.WF d)
    (ha : "carteira_vencida" ∈ d.cols) (hb : "carteira_ativa" ∈ d.cols) :
    ∀ r2 ∈ (indicStep true d).rows,
      getCell (indicStep true d).cols r2 "perc_carteira_vencida" =
        divCell (getCell (indicStep true d).cols r2 "carteira_vencida")
          (getCell (indicStep true d).cols r2 "carteira_ativa") := by
  unfold indicStep
  rw [if_pos rfl]
  have w1 := indicCol_wf d "carteira_inadimplencia" "taxa_inadimplencia" hwf
  have h0 := indicCol_inv _ "carteira_vencida" "perc_carteira_vencida"
    w1 (indicCol_mem_cols _ _ ha) (indicCol_mem_cols _ _ hb) (by decide) (by decide)
  have w2 := indicCol_wf _ "carteira_vencida" "perc_carteira_vencida" w1
  exact indicCol_inv_transfer _ "perc_carteira_vencida" "carteira_vencida"
    "carteira_ativa" "ativo_problematico" "taxa_ativo_problematico"
    w2 (by decide) (by decide) (by decide) h0

theorem indicStep_inv_prob (d : DF) (hwf : DF.WF d)
    (ha : "ativo_problematico" ∈ d.cols) (hb : "carteira_ativa" ∈ d.cols) :
    ∀ r2 ∈ (indicStep true d).rows,
      getCell (indicStep true d).cols r2 "taxa_ativo_problematico" =
        divCell (getCell (indicStep true d).cols r2 "ativo_problematico")
          (getCell (indicStep true d).cols r2 "carteira_ativa") := by
  unfold indicStep
  rw [if_pos rfl]
  have w1 := indicCol_wf d "carteira_inadimplencia" "taxa_inadimplencia" hwf
  have w2 := indicCol_wf _ "carteira_vencida" "perc_carteira_vencida" w1
  exact indicCol_inv _ "ativo_problematico" "taxa_ativo_problematico"
    w2 (indicCol_mem_cols _ _ (indicCol_mem_cols _ _ ha))
    (indicCol_mem_cols _ _ (indicCol_mem_cols _ _ hb)) (by decide) (by decide)

/-- A row-wise ratio invariant of the frame leaving the indicator step is a
row-wise invariant of the transformer's output (the remaining steps only
filter, pass through, and permute). -/
theorem out_inv_of_indic_inv (df : DF) (rz : Bool) (t c1 c2 : String)
    (hinv : ∀ r ∈ (indicStep true (coerceStep (dateStep (renameStep df)))).rows,
      getCell (indicStep true (coerceStep (dateStep (renameStep df)))).cols r t =
        divCell (getCell (indicStep true (coerceStep (dateStep (renameStep df)))).cols r c1)
          (getCell (indicStep true (coerceStep (dateStep (renameStep df)))).cols r c2)) :
    ∀ r ∈ (processar_scrdata df rz true).rows,
      getCell (processar_scrdata df rz true).cols r t =
        divCell (getCell (processar_scrdata df rz true).cols r c1)
          (getCell (processar_scrdata df rz true).cols r c2) := by
  intro r hr
  simp only [processar_scrdata] at hr ⊢
  rw [sortStep_cols, checkStep_eq, filterStep_cols]
  apply hinv
  have h1 := (sortStep_perm (checkStep (filterStep rz
    (indicStep true (coerceStep (dateStep (renameStep df))))))).mem_iff.mp hr
  rw [checkStep_eq] at h1
  exact filterStep_rows_sub _ _ r h1

/-! ### Claims about the transformer -/

/-- C5: for every input table containing both the delinquent-portfolio and
active-portfolio columns, the transformer with indicator derivation enabled
produces a delinquency-rate column equal to delinquent-portfolio divided by
active-portfolio row-wise; the same holds for the past-due-share and
problem-asset-rate indicators; division by zero or by null yields null, and
50/1000 gives the rate 1/20 = 0.05. -/
theorem C5_indicator_ratios (df : DF) (hwf : DF.WF df) (rz : Bool) :
    ("carteira_inadimplencia" ∈ (renameStep df).cols →
     "carteira_ativa" ∈ (renameStep df).cols →
      ∀ r ∈ (processar_scrdata df rz true).rows,
        getCell (processar_scrdata df rz true).cols r "taxa_inadimplencia" =
          divCell (getCell (processar_scrdata df rz true).cols r "carteira_inadimplencia")
            (getCell (processar_scrdata df rz true).cols r "carteira_ativa")) ∧
    ("carteira_vencida" ∈ (renameStep df).cols →
     "carteira_ativa" ∈ (renameStep df).cols →
      ∀ r ∈ (processar_scrdata df rz true).rows,
        getCell (processar_scrdata df rz true).cols r "perc_carteira_vencida" =
          divCell (getCell (processar_scrdata df rz true).cols r "carteira_vencida")
            (getCell (processar_scrdata df rz true).cols r "carteira_ativa")) ∧
    ("ativo_problematico" ∈ (renameStep df).cols →
     "carteira_ativa" ∈ (renameStep df).cols →
      ∀ r ∈ (processar_scrdata df rz true).rows,
        getCell (processar_scrdata df rz true).cols r "taxa_ativo_problematico" =
          divCell (getCell (processar_scrdata df rz true).cols r "ativo_problematico")
            (getCell (processar_scrdata df rz true).cols r "carteira_ativa")) ∧
    (∀ a : Cell, divCell a .null = .null) ∧
    (∀ a : Cell, divCell .null a = .null) ∧
    (∀ q : Rat, divCell (.num q) (.num 0) = .null) ∧
    divCell (.num 50) (.num 1000) = .num (1 / 20 : Rat) := by
  have hwf2 : DF.WF (coerceStep (dateStep (renameStep df))) :=
    coerceStep_wf (dateStep_wf (renameStep_wf hwf))
  refine ⟨?_, ?_, ?_, ?_, ?_, ?_, by decide⟩
  · intro hA hB
    exact out_inv_of_indic_inv df rz _ _ _
      (indicStep_inv_inad _ hwf2 (coerceStep_mem_cols (dateStep_mem_cols hA))
        (coerceStep_mem_cols (dateStep_mem_cols hB)))
  · intro hA hB
    exact out_inv_of_indic_inv df rz _ _ _
      (indicStep_inv_venc _ hwf2 (coerceStep_mem_cols (dateStep_mem_cols hA))
        (coerceStep_mem_cols (dateStep_mem_cols hB)))
  · intro hA hB
    exact out_inv_of_indic_inv df rz _ _ _
      (indicStep_inv_prob _ hwf2 (coerceStep_mem_cols (dateStep_mem_cols hA))
        (coerceStep_mem_cols (dateStep_mem_cols hB)))
  · intro a; cases a <;> rfl
  · intro a; cases a <;> rfl
  · intro q; simp [divCell]

/-- C5 witness: on a concrete frame with rows 50/1000, 3/0, null/2 the
theorem applies and every output row carries the ratio with null on division
by zero or null. -/
theorem C5_witness :
    DF.WF dfC5 ∧
    (∀ r ∈ (processar_scrdata dfC5 false true).rows,
      getCell (processar_scrdata dfC5 false true).cols r "taxa_inadimplencia" =
        divCell (getCell (processar_scrdata dfC5 false true).cols r "carteira_inadimplencia")
          (getCell (processar_scrdata dfC5 false true).cols r "carteira_ativa")) :=
  ⟨by decide, (C5_indicator_ratios dfC5 (by decide) false).1 (by decide) (by decide)⟩

/-- C6: a textual cell of a column subject to numeric coercion goes through
the locale transform (thousands dots removed, decimal comma to point) and
float parsing, so "1.234,56" coerces to 1234.56; an unparseable cell becomes
null; cells of non-convertible columns are untouched, and the row survives;
end to end, a one-column frame coerces as stated. -/
theorem C6_numeric_coercion :
    (∀ df : DF, DF.WF df → ∀ j, j < df.cols.length →
      isConvertibleName (df.cols.getD j "") = true → isObjCol df j = true →
      ∀ r ∈ df.rows,
        (coerceRow df r).getD j .null = coerceCell (r.getD j .null) ∧
        ∀ i, i < df.cols.length → isConvertibleName (df.cols.getD i "") = false →
          (coerceRow df r).getD i .null = r.getD i .null) ∧
    (∀ df : DF, (coerceStep df).rows = df.rows.map (coerceRow df) ∧
      (coerceStep df).cols = df.cols) ∧
    locNumTransform "1.234,56" = "1234.56" ∧
    coerceCell (.str "1.234,56") = .num ((123456 : Rat) / 100) ∧
    coerceCell (.str "abc") = .null ∧
    processar_scrdata ⟨["valor"], [[.str "1.234,56"], [.str "abc"]]⟩ true true =
      ⟨["valor"], [[.num ((123456 : Rat) / 100)], [.null]]⟩ := by
  refine ⟨?_, fun df => ⟨rfl, rfl⟩, by decide, by decide, by decide, by decide⟩
  intro df hwf j hj hc ho r hr
  constructor
  · have h1 := coerceRow_getD (hwf r hr) j hj
    rw [hc, ho] at h1
    simpa using h1
  · intro i hi hnc
    have h2 := coerceRow_getD (hwf r hr) i hi
    rw [hnc] at h2
    simpa using h2

/-- C6 witness: the coercion equations of the theorem at the concrete frame
`dfC6` and its single row. -/
theorem C6_witness :
    DF.WF dfC6 ∧
    ((coerceRow dfC6 rowC6).getD 0 .null = coerceCell (rowC6.getD 0 .null) ∧
     ∀ i, i < dfC6.cols.length → isConvertibleName (dfC6.cols.getD i "") = false →
       (coerceRow dfC6 rowC6).getD i .null = rowC6.getD i .null) :=
  ⟨by decide,
   (C6_numeric_coercion.1 dfC6 (by decide) 0 (by decide) (by decide) (by decide)
     rowC6 (by decide))⟩

/-- C7: with degenerate-row removal enabled every output row has a strictly
positive active portfolio; with removal disabled the output rows are exactly
a permutation of the rows leaving the indicator step, so rows with zero,
negative or null active portfolio remain present and unchanged. -/
theorem C7_degenerate_filter (df : DF) (ci : Bool)
    (hmem : "carteira_ativa" ∈ (renameStep df).cols) :
    (∀ r ∈ (processar_scrdata df true ci).rows,
      isPosCell (getCell (processar_scrdata df true ci).cols r "carteira_ativa") = true) ∧
    List.Perm (processar_scrdata df false ci).rows
      (indicStep ci (coerceStep (dateStep (renameStep df)))).rows ∧
    (∀ r ∈ (indicStep ci (coerceStep (dateStep (renameStep df)))).rows,
      r ∈ (processar_scrdata df false ci).rows) := by
  have hmem3 : "carteira_ativa" ∈ (indicStep ci (coerceStep (dateStep (renameStep df)))).cols :=
    indicStep_mem_cols ci (coerceStep_mem_cols (dateStep_mem_cols hmem))
  have hperm : List.Perm (processar_scrdata df false ci).rows
      (indicStep ci (coerceStep (dateStep (renameStep df)))).rows := by
    simp only [processar_scrdata]
    rw [filterStep_false, checkStep_eq]
    exact sortStep_perm _
  refine ⟨?_, hperm, fun r hr => hperm.mem_iff.mpr hr⟩
  intro r hr
  simp only [processar_scrdata] at hr ⊢
  rw [sortStep_cols, checkStep_eq, filterStep_cols]
  have h1 := (sortStep_perm (checkStep (filterStep true
    (indicStep ci (coerceStep (dateStep (renameStep df))))))).mem_iff.mp hr
  rw [checkStep_eq] at h1
  revert h1
  unfold filterStep
  rw [if_pos ⟨rfl, hmem3⟩]
  intro h1
  exact (List.mem_filter.mp h1).2

/-- C7 witness: on a concrete frame with positive, zero, negative and null
portfolios, every row surviving the enabled filter is strictly positive. -/
theorem C7_witness :
    "carteira_ativa" ∈ (renameStep dfC7).cols ∧
    (∀ r ∈ (processar_scrdata dfC7 true true).rows,
      isPosCell (getCell (processar_scrdata dfC7 true true).cols r "carteira_ativa") = true) :=
  ⟨by decide, (C7_degenerate_filter dfC7 true (by decide)).1⟩

/-- C8: delimiter inference looks at the first 50000 bytes only, returns ";"
exactly when semicolons strictly outnumber commas there and "," otherwise
(ties included); both pipelines' functions agree; 10 semicolons vs 3 commas
gives ";" and a tie gives ",". -/
theorem C8_delimiter_inference :
    (∀ s : String, infer_sep s = ";" ↔
      (s.toList.take 50000).count ',' < (s.toList.take 50000).count ';') ∧
    (∀ s : String, infer_sep s = "," ↔
      (s.toList.take 50000).count ';' ≤ (s.toList.take 50000).count ',') ∧
    (∀ s : String, infer_sep s = inferir_sep s) ∧
    infer_sep ";;;;;;;;;;,,," = ";" ∧
    infer_sep ";;;,,," = "," ∧
    inferir_sep "" = "," := by
  refine ⟨fun s => ?_, fun s => ?_, fun s => rfl, by decide, by decide, by decide⟩
  · simp only [infer_sep]
    split
    · rename_i hgt
      exact ⟨fun _ => hgt, fun _ => rfl⟩
    · rename_i hgt
      exact ⟨fun he => absurd he (by decide), fun hc => absurd hc hgt⟩
  · simp only [infer_sep]
    split
    · rename_i hgt
      exact ⟨fun he => absurd he (by decide), fun hc => absurd hgt (Nat.not_lt.mpr hc)⟩
    · rename_i hgt
      exact ⟨fun _ => Nat.not_lt.mp hgt, fun _ => rfl⟩

/-- C9: the consistency check of step 6 computes its diagnostic row set but
returns the frame unchanged and never fails: the transformer equals the same
composition with the check dropped. -/
theorem C9_consistency_check (df : DF) (rz ci : Bool) :
    checkStep df = df ∧
    processar_scrdata df rz ci =
      sortStep (filterStep rz (indicStep ci (coerceStep (dateStep (renameStep df))))) ∧
    inconsistentes df = df.rows.filter (fun r =>
      cellGtB (getCell df.cols r "carteira_vencida") (getCell df.cols r "carteira_ativa")) := by
  refine ⟨checkStep_eq df, ?_, rfl⟩
  simp only [processar_scrdata]
  rw [checkStep_eq]

/-! ### Trace accounting lemmas -/

@[simp] theorem isHttpGet_mkdir (p : String) : isHttpGet (.mkdir p) = false := rfl

@[simp] theorem isHttpGet_httpGet (u : String) : isHttpGet (.httpGet u) = true := rfl

@[simp] theorem isHttpGet_writeFile (p : String) : isHttpGet (.writeFile p) = false := rfl

@[simp] theorem isHttpGet_readFile (p : String) : isHttpGet (.readFile p) = false := rfl

@[simp] theorem isHttpGet_s3Head (b k : String) : isHttpGet (.s3Head b k) = false := rfl

@[simp] theorem isHttpGet_s3Upload (b k : String) : isHttpGet (.s3Upload b k) = false := rfl

@[simp] theorem isHttpGet_clearDir (p : String) : isHttpGet (.clearDir p) = false := rfl

@[simp] theorem isHttpGet_extractTo (p : String) : isHttpGet (.extractTo p) = false := rfl

@[simp] theorem httpCount_nil : httpCount [] = 0 := rfl

@[simp] theorem httpCount_cons (e : Eff) (t : List Eff) :
    httpCount (e :: t) = httpCount t + if isHttpGet e then 1 else 0 :=
  List.countP_cons _ _ _

@[simp] theorem httpCount_append (a b : List Eff) :
    httpCount (a ++ b) = httpCount a + httpCount b :=
  List.countP_append _ _ _

theorem fetchStep_cached {url zp : String} {env : Env} {fs : FS} {z : ZipArchive}
    (hz : fs.zipFile = some z) : fetchStep url zp false env fs = (.ok fs, []) := by
  unfold fetchStep
  rw [hz]
  rfl

theorem fetchStep_dl {url zp : String} {env : Env} {fs : FS} {z : ZipArchive}
    (hn : fs.zipFile = none) (hh : env.http url = some z) :
    fetchStep url zp false env fs =
      (.ok { fs with zipFile := some z }, [.httpGet url, .writeFile zp]) := by
  unfold fetchStep
  rw [hn, hh]
  rfl

theorem extractStep_http (extDir zp : String) (forcar : Bool) (fs : FS) :
    httpCount (extractStep extDir zp forcar fs).2 = 0 := by
  unfold extractStep
  split
  · rfl
  · split
    · cases forcar <;> simp
    · cases forcar <;> simp

theorem extractStep_ok_zip {extDir zp : String} {forcar : Bool} {fs fs2 : FS}
    (h : (extractStep extDir zp forcar fs).1 = .ok fs2) : fs2.zipFile = fs.zipFile := by
  unfold extractStep at h
  split at h
  · cases h
    rfl
  · split at h
    · cases h
    · rename_i z hz
      cases h
      rw [hz]

theorem read_http (files : List ZipEntry) :
    httpCount (read_and_concat_csvs files).2 = 0 := by
  show httpCount (files.map fun p => Eff.readFile p.name) = 0
  induction files with
  | nil => rfl
  | cons p ps ih => simp [ih]

/-- With a cached zip and no forced refresh, a run of the local pipeline
performs no download. -/
theorem run_http_cached (ano : Int) (base : String) (env : Env) (fs : FS)
    (z : ZipArchive) (hy : 1900 ≤ ano ∧ ano ≤ 2100) (hz : fs.zipFile = some z) :
    httpCount (pipeline_scrdata ano base false env fs).trace = 0 := by
  unfold pipeline_scrdata
  rw [if_pos hy]
  dsimp only
  rw [fetchStep_cached hz]
  dsimp only
  split
  · simp [extractStep_http]
  · split
    · simp [extractStep_http]
    · simp [extractStep_http, read_http]

/-- With no cached zip and a successful download, a run of the local
pipeline performs exactly one download and leaves the zip cached. -/
theorem run_http_dl (ano : Int) (base : String) (env : Env) (fs : FS)
    (z : ZipArchive) (hy : 1900 ≤ ano ∧ ano ≤ 2100) (hn : fs.zipFile = none)
    (hh : env.http (urlOf ano) = some z) :
    httpCount (pipeline_scrdata ano base false env fs).trace = 1 ∧
    (pipeline_scrdata ano base false env fs).fs.zipFile = some z := by
  unfold pipeline_scrdata
  rw [if_pos hy]
  dsimp only
  rw [fetchStep_dl hn hh]
  dsimp only
  split
  · rename_i e heq
    refine ⟨by simp [extractStep_http], ?_⟩
    rfl
  · rename_i fs2 heq
    have hz2 : fs2.zipFile = some z := by
      rw [extractStep_ok_zip heq]
    split
    · exact ⟨by simp [extractStep_http], hz2⟩
    · exact ⟨by simp [extractStep_http, read_http], hz2⟩

/-- Every successful run reports the year's canonical zip path. -/
theorem run_ok_zipPath (ano : Int) (base : String) (forcar : Bool) (env : Env)
    (fs : FS) (hy : 1900 ≤ ano ∧ ano ≤ 2100) :
    ∀ o, (pipeline_scrdata ano base forcar env fs).res = .ok o →
      o.zipPath = zipPathOf base ano := by
  unfold pipeline_scrdata
  rw [if_pos hy]
  dsimp only
  intro o
  split
  · exact fun h => nomatch h
  · split
    · exact fun h => nomatch h
    · split
      · exact fun h => nomatch h
      · intro h
        cases h
        rfl

/-! ### Claims about the pipelines' effects -/

/-- C1: the zip-slip guard of `safe_extract_zip` accepts the member
`../extracted_evil/evil.csv` although its resolved path
`/data_work/ano=2012/extracted_evil/evil.csv` lies outside the destination
`/data_work/ano=2012/extracted` — the string prefix test succeeds without a
path-separator check, so extraction proceeds with no security error; a
traversal to a directory that is not a string extension of the destination
is rejected. -/
theorem C1_zip_slip_guard :
    checkEntry slipDest "../extracted_evil/evil.csv" = true ∧
    resolveJoin slipDest "../extracted_evil/evil.csv" =
      ["data_work", "ano=2012", "extracted_evil", "evil.csv"] ∧
    (normSegs slipDest).isPrefixOf (resolveJoin slipDest "../extracted_evil/evil.csv") =
      false ∧
    safe_extract_zip slipZip slipDest =
      .ok [["data_work", "ano=2012", "extracted", "extracted_evil", "evil.csv"]] ∧
    checkEntry slipDest "../../outro/evil.csv" = false := by decide

/-- C2 (amended): the local pipeline `pipeline_scrdata` rejects every year
outside [1900, 2100] before any effect: the result is the invalid-year
error, the trace is empty and the filesystem is untouched.  (The S3
pipeline performs no such validation — see the counterexample.) -/
theorem C2_year_guard (ano : Int) (base : String) (forcar : Bool) (env : Env)
    (fs : FS) (h : ano < 1900 ∨ 2100 < ano) :
    pipeline_scrdata ano base forcar env fs = ⟨.error (.invalidYear ano), [], fs⟩ := by
  unfold pipeline_scrdata
  rw [if_neg (by omega)]

/-- C2 witness: the guard theorem applied at year 2101. -/
theorem C2_witness :
    ((2101 : Int) < 1900 ∨ (2100 : Int) < 2101) ∧
    pipeline_scrdata 2101 "data/scrdata" false envC2 fsEmpty =
      ⟨.error (.invalidYear 2101), [], fsEmpty⟩ :=
  ⟨Or.inr (by decide),
   C2_year_guard 2101 "data/scrdata" false envC2 fsEmpty (Or.inr (by decide))⟩

/-- C2 counterexample: `process_year_to_s3` invoked for the out-of-range
year 2101 does not fail with an invalid-argument error and performs I/O
before failing — it creates directories, probes object storage and issues
the network download. -/
theorem C2_counterexample :
    (process_year_to_s3 2101 "bkt" "scr" "data_work" false envC2).1 =
      .error (.fetch (urlOf 2101)) ∧
    (process_year_to_s3 2101 "bkt" "scr" "data_work" false envC2).2 =
      [.mkdir "data_work/ano=2101/raw", .mkdir "data_work/ano=2101/extracted",
       .mkdir "data_work/ano=2101/processed",
       .s3Head "bkt" "scr/processed/ano=2101/scrdata_2101.parquet",
       .mkdir "data_work/ano=2101/raw", .httpGet (urlOf 2101)] ∧
    httpCount (process_year_to_s3 2101 "bkt" "scr" "data_work" false envC2).2 = 1 := by
  decide

/-- C3 (amended): when the processed artifact already exists at the target
key and overwrite is not requested, the whole year is skipped — the run
performs exactly the three working-directory creations followed by the
object-storage probe, and no download, upload, extraction, read, transform
persistence or any other work effect occurs.  The probe is not the very
first action: the directory creations precede it. -/
theorem C3_skip_check (ano : Int) (bucket pfx wd : String) (env : Env)
    (h : env.s3Has (parquetKeyOf pfx ano) = true) :
    process_year_to_s3 ano bucket pfx wd false env =
      (.ok .skipped,
       [.mkdir (rawDirS3 wd ano), .mkdir (extDirS3 wd ano), .mkdir (procDirS3 wd ano),
        .s3Head bucket (parquetKeyOf pfx ano)]) ∧
    ∀ e ∈ (process_year_to_s3 ano bucket pfx wd false env).2, isWorkEff e = false := by
  have heq : process_year_to_s3 ano bucket pfx wd false env =
      (.ok .skipped,
       [.mkdir (rawDirS3 wd ano), .mkdir (extDirS3 wd ano), .mkdir (procDirS3 wd ano),
        .s3Head bucket (parquetKeyOf pfx ano)]) := by
    unfold process_year_to_s3
    dsimp only
    rw [Bool.not_false, Bool.true_and, h, if_pos rfl]
    rfl
  refine ⟨heq, ?_⟩
  rw [heq]
  intro e he
  simp only [List.mem_cons, List.not_mem_nil, or_false] at he
  rcases he with rfl | rfl | rfl | rfl <;> rfl

/-- C3 witness: the skip theorem applied at a concrete year and environment
whose object storage holds the artifact. -/
theorem C3_witness :
    envC3.s3Has (parquetKeyOf "scr" 2012) = true ∧
    (process_year_to_s3 2012 "b" "scr" "data_work" false envC3 =
      (.ok .skipped,
       [.mkdir (rawDirS3 "data_work" 2012), .mkdir (extDirS3 "data_work" 2012),
        .mkdir (procDirS3 "data_work" 2012), .s3Head "b" (parquetKeyOf "scr" 2012)]) ∧
     ∀ e ∈ (process_year_to_s3 2012 "b" "scr" "data_work" false envC3).2,
       isWorkEff e = false) :=
  ⟨rfl, C3_skip_check 2012 "b" "scr" "data_work" envC3 rfl⟩

/-- C3 counterexample: in the skip scenario the very first action of the
year's run is a directory creation, not the object-storage skip probe; the
probe only comes fourth. -/
theorem C3_counterexample :
    (process_year_to_s3 2012 "b" "scr" "data_work" false envC3).2.head? =
      some (.mkdir "data_work/ano=2012/raw") ∧
    Eff.s3Head "b" "scr/processed/ano=2012/scrdata_2012.parquet" ∈
      (process_year_to_s3 2012 "b" "scr" "data_work" false envC3).2 ∧
    Eff.mkdir "data_work/ano=2012/raw" ≠
      Eff.s3Head "b" "scr/processed/ano=2012/scrdata_2012.parquet" := by decide

/-- C4: when the year's zip already exists locally and no forced refresh is
requested, the local pipeline's fetch stage performs no network call; from
an empty cache, two consecutive runs for the same year perform exactly one
download in total (all of it in the first run), and both runs report the
same canonical artifact path. -/
theorem C4_fetch_cache (ano : Int) (base : String) (env : Env) (fs : FS)
    (z : ZipArchive) (h1 : 1900 ≤ ano) (h2 : ano ≤ 2100) :
    (fs.zipFile = some z → httpCount (pipeline_scrdata ano base false env fs).trace = 0) ∧
    (fs.zipFile = none → env.http (urlOf ano) = some z →
      httpCount (pipeline_scrdata ano base false env fs).trace = 1 ∧
      httpCount (pipeline_scrdata ano base false env
        (pipeline_scrdata ano base false env fs).fs).trace = 0) ∧
    (∀ o1, (pipeline_scrdata ano base false env fs).res = .ok o1 →
      o1.zipPath = zipPathOf base ano) ∧
    (∀ o2, (pipeline_scrdata ano base false env
        (pipeline_scrdata ano base false env fs).fs).res = .ok o2 →
      o2.zipPath = zipPathOf base ano) := by
  refine ⟨fun hz => run_http_cached ano base env fs z ⟨h1, h2⟩ hz,
          fun hn hh => ?_,
          run_ok_zipPath ano base false env fs ⟨h1, h2⟩,
          run_ok_zipPath ano base false env _ ⟨h1, h2⟩⟩
  obtain ⟨hc, hzf⟩ := run_http_dl ano base env fs z ⟨h1, h2⟩ hn hh
  exact ⟨hc, run_http_cached ano base env _ z ⟨h1, h2⟩ hzf⟩

/-- C4 witness: starting from an empty cache against a serving network, run
one performs exactly one download and run two performs none. -/
theorem C4_witness :
    fsEmpty.zipFile = none ∧ envC4.http (urlOf 2012) = some zipC4 ∧
    httpCount (pipeline_scrdata 2012 "data/scrdata" false envC4 fsEmpty).trace = 1 ∧
    httpCount (pipeline_scrdata 2012 "data/scrdata" false envC4
      (pipeline_scrdata 2012 "data/scrdata" false envC4 fsEmpty).fs).trace = 0 :=
  ⟨rfl, rfl,
   ((C4_fetch_cache 2012 "data/scrdata" envC4 fsEmpty zipC4
      (by decide) (by decide)).2.1 rfl rfl).1,
   ((C4_fetch_cache 2012 "data/scrdata" envC4 fsEmpty zipC4
      (by decide) (by decide)).2.1 rfl rfl).2⟩

/-- C10: the loader's read-and-concatenate function maps the empty file
list to the empty frame (zero rows) with no read effect and no error; the
no-CSV failure is raised by the pipeline callers that scan the extraction
directory, in both the S3 and the local pipeline. -/
theorem C10_empty_loader :
    read_and_concat_csvs [] = (emptyDF, []) ∧
    emptyDF.rows = [] ∧
    (process_year_to_s3 2012 "b" "scr" "data_work" false envC10).1 =
      .error (.noCsv "data_work/ano=2012/extracted") ∧
    (pipeline_scrdata 2012 "data/scrdata" false envC10 fsEmpty).res =
      .error (.noCsv "data/scrdata/2012/extracted") := by decide
